import Mathlib

/-!
Verification of the authentication/authorization core of the SSO
microservice repository. Definitions are shallow embeddings of the
repository's sources (prisma/seed.ts, docker/start.sh,
src/config/database.js). Core components that the specification
describes but whose implementation files are not among the available
sources (token engine, lockout tracker, RBAC resolver, service
registry) are modelled from the specification; each such definition is
marked `Modelled from the spec:` in its doc comment.
-/

namespace SSO

/-! ## Seeded data (prisma/seed.ts) -/

/-- A role as created by prisma/seed.ts: unique name, human description,
list of permission strings. -/
structure SeedRole where
  name : String
  description : String
  permissions : List String
  deriving DecidableEq, Repr

/-- Role `super_admin`, seed.ts lines 24-38. -/
def superAdminRole : SeedRole :=
  ⟨"super_admin", "Administrador del sistema con acceso completo",
   ["users.create", "users.read", "users.update", "users.delete",
    "roles.create", "roles.read", "roles.update", "roles.delete",
    "microservices.create", "microservices.read", "microservices.update", "microservices.delete",
    "system.config", "system.logs", "system.health",
    "dashboard.view", "dashboard.analytics"]⟩

/-- Role `admin`, seed.ts lines 40-53. -/
def adminRole : SeedRole :=
  ⟨"admin", "Administrador con permisos de gestión",
   ["users.create", "users.read", "users.update",
    "roles.read",
    "microservices.read", "microservices.update",
    "dashboard.view"]⟩

/-- Role `user`, seed.ts lines 55-66. -/
def userRole : SeedRole :=
  ⟨"user", "Usuario básico del sistema",
   ["profile.read", "profile.update",
    "dashboard.view"]⟩

/-- A registered microservice as created by prisma/seed.ts: unique name,
description, base URL, health-check URL, allowed-role list. -/
structure SeedMicroservice where
  name : String
  description : String
  url : String
  healthCheckUrl : String
  allowedRoles : List String
  deriving DecidableEq, Repr

/-- The three seeded microservices, seed.ts lines 160-182. -/
def seedMicroservices : List SeedMicroservice :=
  [⟨"Sistema Principal", "Aplicación principal del ecosistema",
    "http://localhost:8000", "http://localhost:8000/health",
    ["super_admin", "admin", "user"]⟩,
   ⟨"API de Productos", "Microservicio de gestión de productos",
    "http://localhost:8001", "http://localhost:8001/api/health",
    ["super_admin", "admin"]⟩,
   ⟨"Servicio de Reportes", "Generación de reportes y analytics",
    "http://localhost:8002", "http://localhost:8002/health",
    ["super_admin", "admin"]⟩]

/-- The seeded reports service (`Servicio de Reportes`), seed.ts lines 175-181. -/
def reportsService : SeedMicroservice :=
  ⟨"Servicio de Reportes", "Generación de reportes y analytics",
   "http://localhost:8002", "http://localhost:8002/health",
   ["super_admin", "admin"]⟩

/-- A system configuration row as created by prisma/seed.ts: key, value,
description, declared data type. -/
structure SeedConfig where
  key : String
  value : String
  description : String
  dataType : String
  deriving DecidableEq, Repr

/-- The seeded system configuration table, seed.ts lines 195-232. -/
def systemConfigs : List SeedConfig :=
  [⟨"system.name", "Sistema de Autenticación Centralizado", "Nombre del sistema", "string"⟩,
   ⟨"auth.max_login_attempts", "5", "Máximo número de intentos de login fallidos", "number"⟩,
   ⟨"auth.lockout_duration", "15", "Duración del bloqueo en minutos", "number"⟩,
   ⟨"jwt.access_token_expires", "15m", "Tiempo de expiración del access token", "string"⟩,
   ⟨"jwt.refresh_token_expires", "7d", "Tiempo de expiración del refresh token", "string"⟩,
   ⟨"system.maintenance_mode", "false", "Modo de mantenimiento del sistema", "boolean"⟩]

/-- Look up the value stored under a configuration key. -/
def configValue (key : String) : Option String :=
  (systemConfigs.find? (fun c => c.key == key)).map (fun c => c.value)

/-! ## RBAC resolver -/

/-- Modelled from the spec: the RBAC resolver's `resolve(roleSet)` is the
union of all permissions across the principal's assigned roles, with
duplicates collapsed (set semantics). The resolver implementation file is
not among the available sources. Roles are JS arrays, so the role set is a
list and the union is concatenation followed by deduplication. -/
def resolve (roles : List SeedRole) : List String :=
  (roles.flatMap (fun r => r.permissions)).dedup

/-- Modelled from the spec: `authorize(permissionSet, requiredPermission)`
is exact string membership, no wildcard or hierarchy matching. -/
def authorize (perms : List String) (required : String) : Bool :=
  perms.contains required

/-! ## Service registry -/

/-- Modelled from the spec: `authorizeAccess(service, principalRoles)`
grants access exactly when the intersection of the principal's roles with
the service's allowed-role set is non-empty. The registry implementation
file is not among the available sources. -/
def authorizeAccess (s : SeedMicroservice) (principalRoles : List String) : Bool :=
  principalRoles.any (fun r => s.allowedRoles.contains r)

/-- Modelled from the spec: `register(service)` is idempotent by name —
a duplicate registration updates the stored metadata of the entry with
that name instead of creating a second entry. This mirrors the name-keyed
`prisma.microservice.upsert` used by seed.ts lines 184-190. -/
def register (reg : List SeedMicroservice) (s : SeedMicroservice) : List SeedMicroservice :=
  if reg.any (fun e => e.name == s.name) then
    reg.map (fun e => if e.name == s.name then s else e)
  else
    reg ++ [s]

/-! ## Token engine: access tokens -/

/-- Claims carried by a self-contained access token: principal id, role
snapshot at issuance, expiry instant. -/
structure Claims where
  principalId : Nat
  roles : List String
  exp : Nat
  deriving DecidableEq, Repr

/-- A signed access token. The external keyed signing primitive is modelled
abstractly: the signature is the signing key attached to the payload, and
verification compares it against the verifier's key. -/
structure AccessToken where
  claims : Claims
  sig : Nat
  deriving DecidableEq, Repr

/-- Failures of access-token verification. -/
inductive VerifyError
  | ExpiredToken
  | InvalidSignature
  | Malformed
  deriving DecidableEq, Repr

/-- Modelled from the spec: `issue` mints a short-lived self-contained
access token carrying the principal id, the role snapshot at issuance, and
the expiry `now + lifetime`, signed with the configured key. The token
engine implementation file is not among the available sources. -/
def issueAccess (key now lifetime p : Nat) (roles : List String) : AccessToken :=
  ⟨⟨p, roles, now + lifetime⟩, key⟩

/-- Modelled from the spec: `verifyAccess` is a pure function of the
signing key and the current time; it rejects a bad signature, rejects an
expired token, and otherwise returns the embedded claims. -/
def verifyAccess (key now : Nat) (tok : AccessToken) : Except VerifyError Claims :=
  if tok.sig ≠ key then .error .InvalidSignature
  else if tok.claims.exp ≤ now then .error .ExpiredToken
  else .ok tok.claims

/-! ## Token engine: refresh-token rotation chains -/

/-- A stored refresh-token session record: identifier, rotation lineage,
owning principal, expiry, revoked flag, predecessor in the chain. -/
structure Session where
  id : Nat
  lineage : Nat
  principalId : Nat
  expiresAt : Nat
  revoked : Bool
  predecessorId : Option Nat
  deriving DecidableEq, Repr

/-- The server-side refresh-token store: session records, the current
chain-tip per lineage (most recent entry first), and fresh-id counters. -/
structure TokenStore where
  sessions : List Session
  tips : List (Nat × Nat)
  nextId : Nat
  nextLineage : Nat
  deriving DecidableEq, Repr

/-- Find the session record with the given token id. -/
def findSession (st : TokenStore) (tid : Nat) : Option Session :=
  st.sessions.find? (fun s => s.id == tid)

/-- The current chain-tip token id of a lineage. -/
def tipOf (st : TokenStore) (lin : Nat) : Option Nat :=
  (st.tips.find? (fun q => q.1 == lin)).map (fun q => q.2)

/-- Mark the session with the given id revoked. -/
def markRevoked (sessions : List Session) (tid : Nat) : List Session :=
  sessions.map (fun s => if s.id == tid then { s with revoked := true } else s)

/-- Revoke every session of a lineage (replay response). -/
def revokeLineageSessions (sessions : List Session) (lin : Nat) : List Session :=
  sessions.map (fun s => if s.lineage == lin then { s with revoked := true } else s)

/-- Modelled from the spec: issuing a refresh token creates a fresh
lineage whose single session is the chain-tip. The token engine
implementation file is not among the available sources. -/
def issueRefresh (st : TokenStore) (p now ttl : Nat) : Nat × TokenStore :=
  (st.nextId,
   { sessions := ⟨st.nextId, st.nextLineage, p, now + ttl, false, none⟩ :: st.sessions,
     tips := (st.nextLineage, st.nextId) :: st.tips,
     nextId := st.nextId + 1,
     nextLineage := st.nextLineage + 1 })

/-- Failures of refresh-token rotation. -/
inductive RotateError
  | TokenReused
  | TokenExpired
  | TokenRevoked
  | TokenNotFound
  deriving DecidableEq, Repr

/-- Modelled from the spec: `rotate(refreshToken)`. If the presented token
is the current chain-tip and unexpired, mark it revoked and create a new
chain-tip linked to it; if it is found but is not the chain-tip, revoke the
entire lineage and fail with `TokenReused`; a revoked tip fails with
`TokenRevoked`, an expired tip with `TokenExpired`. The failure result is
returned together with the (possibly mutated) store. -/
def rotate (st : TokenStore) (tid now ttl : Nat) : Except RotateError Nat × TokenStore :=
  match findSession st tid with
  | none => (.error .TokenNotFound, st)
  | some s =>
      if tipOf st s.lineage ≠ some tid then
        (.error .TokenReused,
         { st with sessions := revokeLineageSessions st.sessions s.lineage })
      else if s.revoked then
        (.error .TokenRevoked, st)
      else if s.expiresAt ≤ now then
        (.error .TokenExpired, st)
      else
        (.ok st.nextId,
         { sessions := ⟨st.nextId, s.lineage, s.principalId, now + ttl, false, some tid⟩ ::
             markRevoked st.sessions tid,
           tips := (s.lineage, st.nextId) :: st.tips,
           nextId := st.nextId + 1,
           nextLineage := st.nextLineage })

/-! ## Lockout tracker -/

/-- Lockout configuration: failure threshold, lockout duration, rolling
window length (time units are abstract instants). -/
structure LockoutConfig where
  threshold : Nat
  lockoutDuration : Nat
  window : Nat
  deriving DecidableEq, Repr

/-- Per-identity lockout record: failure count, window anchor (time of the
first failure of the current window), optional locked-until instant. -/
structure LockoutRecord where
  count : Nat
  windowStart : Nat
  lockedUntil : Option Nat
  deriving DecidableEq, Repr

/-- Answer of `checkAllowed`. -/
inductive LockoutStatus
  | Allowed
  | Locked (lockedUntil : Nat)
  deriving DecidableEq, Repr

/-- Modelled from the spec: `recordFailure` increments the counter within
the rolling window anchored at the first failure; a failure after the
window has elapsed starts a fresh window; when the count reaches the
threshold, `locked_until` is set to `now + lockoutDuration`. The lockout
tracker implementation file is not among the available sources. -/
def recordFailure (cfg : LockoutConfig) (now : Nat) (r : Option LockoutRecord) : LockoutRecord :=
  match r with
  | none =>
      ⟨1, now, if cfg.threshold ≤ 1 then some (now + cfg.lockoutDuration) else none⟩
  | some r0 =>
      if r0.windowStart + cfg.window ≤ now then
        ⟨1, now, if cfg.threshold ≤ 1 then some (now + cfg.lockoutDuration) else r0.lockedUntil⟩
      else
        ⟨r0.count + 1, r0.windowStart,
         if cfg.threshold ≤ r0.count + 1 then some (now + cfg.lockoutDuration)
         else r0.lockedUntil⟩

/-- Modelled from the spec: `checkAllowed` answers `Locked(until)` while a
lock is in force and `Allowed` otherwise. -/
def checkAllowed (now : Nat) (r : Option LockoutRecord) : LockoutStatus :=
  match r with
  | none => .Allowed
  | some r0 =>
      match r0.lockedUntil with
      | some u => if now < u then .Locked u else .Allowed
      | none => .Allowed

/-- Fold a sequence of failure instants through `recordFailure`. -/
def recordFailures (cfg : LockoutConfig) (times : List Nat) (r : Option LockoutRecord) :
    Option LockoutRecord :=
  times.foldl (fun acc t => some (recordFailure cfg t acc)) r

/-! ## Container startup check (docker/start.sh) -/

/-- The environment variables start.sh requires, lines 38-46. -/
def requiredVars : List String :=
  ["DB_HOST", "DB_PORT", "DB_NAME", "DB_USER", "DB_PASSWORD",
   "JWT_SECRET", "JWT_REFRESH_SECRET"]

/-- Look a variable up in a process environment (an association list). -/
def envLookup (env : List (String × String)) (v : String) : Option String :=
  (env.find? (fun q => q.1 == v)).map (fun q => q.2)

/-- start.sh line 49: `[ -z "${!var}" ]` — a variable counts as present
only when it is set to a non-empty string. -/
def envVarPresent (env : List (String × String)) (v : String) : Bool :=
  match envLookup env v with
  | some s => !(s == "")
  | none => false

/-- start.sh lines 48-53: the startup check passes exactly when every
required variable is present and non-empty. -/
def startupEnvCheck (env : List (String × String)) : Bool :=
  requiredVars.all (envVarPresent env)

/-- Outcome of container startup. -/
inductive StartOutcome
  | Refused
  | Started
  deriving DecidableEq, Repr

/-- start.sh lines 48-53: when a required variable (in particular
`JWT_SECRET` or `JWT_REFRESH_SECRET`) is missing or empty the script runs
`exit 1` before the Node application — and with it any token issuance or
verification — is ever started. -/
def startContainer (env : List (String × String)) : StartOutcome :=
  if startupEnvCheck env then .Started else .Refused

/-! ## Database.transaction (src/config/database.js lines 121-140) -/

/-- A query issued on the pooled client during a transaction. -/
inductive ClientEvent
  | beginTxn
  | write (q : String)
  | commitTxn
  | rollbackTxn
  deriving DecidableEq, Repr

/-- A transaction callback, observed at the `Database.transaction`
interface: the write queries it issues on the client, and whether it
returns a value or throws an error. -/
structure TxnCallback (E A : Type) where
  writes : List String
  outcome : Except E A

/-- Errors surfaced by `Database.transaction`: the not-connected guard
(line 123, `Base de datos no conectada`) or the callback's own error,
re-thrown after rollback (line 136). -/
inductive DbError (E : Type)
  | notConnected
  | callbackError (e : E)

/-- What one `Database.transaction` call did: its result, the ordered
events issued on the client, and how many times the client was released. -/
structure TxnResult (E A : Type) where
  result : Except (DbError E) A
  events : List ClientEvent
  releases : Nat

/-- Shallow embedding of `Database.transaction` (database.js lines
121-140): refuse when not connected; otherwise acquire a client, `BEGIN`,
run the callback; `COMMIT` and return its result when it returns, `ROLLBACK`
and re-throw when it throws; release the client in the `finally`. -/
def transaction {E A : Type} (isConnected : Bool) (cb : TxnCallback E A) : TxnResult E A :=
  if isConnected then
    match cb.outcome with
    | .ok a =>
        ⟨.ok a, .beginTxn :: cb.writes.map .write ++ [.commitTxn], 1⟩
    | .error e =>
        ⟨.error (.callbackError e), .beginTxn :: cb.writes.map .write ++ [.rollbackTxn], 1⟩
  else
    ⟨.error .notConnected, [], 0⟩

/-- PostgreSQL-side view of a client connection: the committed writes and
the pending writes of an open transaction (`none` when no transaction is
open). -/
structure DbState where
  committed : List String
  pending : Option (List String)
  deriving DecidableEq, Repr

/-- Effect of one client event on the database state: `BEGIN` snapshots,
writes inside a transaction accumulate in the pending set (outside one
they autocommit), `COMMIT` publishes the pending writes, `ROLLBACK`
discards them. -/
def applyEvent (st : DbState) (ev : ClientEvent) : DbState :=
  match ev with
  | .beginTxn => { st with pending := some st.committed }
  | .write q =>
      match st.pending with
      | some p => { st with pending := some (p ++ [q]) }
      | none => { st with committed := st.committed ++ [q] }
  | .commitTxn =>
      match st.pending with
      | some p => ⟨p, none⟩
      | none => st
  | .rollbackTxn => { st with pending := none }

/-- Run a list of client events against a database state. -/
def runEvents (st : DbState) (evs : List ClientEvent) : DbState :=
  evs.foldl applyEvent st

/-! ## Theorems -/

/-- Claim C3: round-trip — for every principal, role set, and time
strictly before the access token's expiry, `verifyAccess` on the token
issued by `issueAccess` succeeds and returns claims carrying the principal
id and the role snapshot taken at issuance; at or after expiry it fails
with `ExpiredToken`. -/
theorem verify_issue_roundtrip (key now lifetime p t : Nat) (roles : List String) :
    (t < now + lifetime →
      verifyAccess key t (issueAccess key now lifetime p roles) =
        Except.ok ⟨p, roles, now + lifetime⟩) ∧
    (now + lifetime ≤ t →
      verifyAccess key t (issueAccess key now lifetime p roles) =
        Except.error VerifyError.ExpiredToken) := by
  constructor
  · intro h
    simp [verifyAccess, issueAccess, Nat.not_le_of_lt h]
  · intro h
    simp [verifyAccess, issueAccess, h]

/-- Witness for `verify_issue_roundtrip` at key 9, issuance time 0,
lifetime 15, principal 42, roles `["user"]`, checked at times 5 and 20. -/
theorem verify_issue_roundtrip_witness :
    verifyAccess 9 5 (issueAccess 9 0 15 42 ["user"]) =
      Except.ok ⟨42, ["user"], 15⟩ ∧
    verifyAccess 9 20 (issueAccess 9 0 15 42 ["user"]) =
      Except.error VerifyError.ExpiredToken :=
  ⟨(verify_issue_roundtrip 9 0 15 42 5 ["user"]).1 (by decide),
   (verify_issue_roundtrip 9 0 15 42 20 ["user"]).2 (by decide)⟩

/-- Claim C4: `resolve` is a pure set-union homomorphism — resolving the
union (concatenation) of two role sets yields the union of the separate
resolutions, and the result is duplicate-free. -/
theorem resolve_union_hom (A B : List SeedRole) :
    (resolve (A ++ B)).toFinset = (resolve A).toFinset ∪ (resolve B).toFinset ∧
    (resolve (A ++ B)).Nodup := by
  refine ⟨?_, List.nodup_dedup _⟩
  ext x
  simp [resolve, List.mem_dedup, List.mem_flatMap, List.mem_append]

/-- Claim C5: `authorizeAccess` grants access iff the intersection of the
principal's roles with the service's allowed-role set is non-empty; on the
seeded reports service (allowed roles `super_admin`, `admin`) a principal
holding only `user` is denied and one holding `user` and `admin` is
granted. -/
theorem authorizeAccess_intersection :
    (∀ (s : SeedMicroservice) (R : List String),
        authorizeAccess s R = true ↔ ∃ r, r ∈ R ∧ r ∈ s.allowedRoles) ∧
    authorizeAccess reportsService ["user"] = false ∧
    authorizeAccess reportsService ["user", "admin"] = true := by
  refine ⟨?_, by decide, by decide⟩
  intro s R
  simp [authorizeAccess, List.any_eq_true]

/-- Claim C6 counterexample: the claim asserts role `user`'s seeded
permission set is exactly `{profile.read, profile.update}`, but seed.ts
also grants `dashboard.view` to role `user`, so the claimed conjunction is
false on the seeded data. -/
theorem rbac_users_delete_counterexample :
    ¬ (userRole.permissions.toFinset =
         ({"profile.read", "profile.update"} : Finset String) ∧
       authorize (resolve [userRole]) "users.delete" = false ∧
       authorize (resolve [userRole, adminRole]) "users.delete" = false) := by
  intro h
  have h1 := h.1
  have : "dashboard.view" ∈ userRole.permissions.toFinset := by decide
  rw [h1] at this
  exact absurd this (by decide)

/-- Claim C6 (amended): role `user`'s seeded permission set is
`{profile.read, profile.update, dashboard.view}` and role `admin`'s is
`{users.create, users.read, users.update, roles.read, microservices.read,
microservices.update, dashboard.view}`; `authorize (resolve {user})
"users.delete"` is false, and after also granting `admin` it is still
false, since no held role grants `users.delete`. -/
theorem rbac_users_delete :
    userRole.permissions.toFinset =
      ({"profile.read", "profile.update", "dashboard.view"} : Finset String) ∧
    adminRole.permissions.toFinset =
      ({"users.create", "users.read", "users.update", "roles.read",
        "microservices.read", "microservices.update", "dashboard.view"} : Finset String) ∧
    authorize (resolve [userRole]) "users.delete" = false ∧
    authorize (resolve [userRole, adminRole]) "users.delete" = false := by
  refine ⟨by decide, by decide, by decide, by decide⟩

/-- Claim C7: the seeded configuration matches the spec defaults — lockout
threshold `auth.max_login_attempts` is 5, lockout duration
`auth.lockout_duration` is 15 (minutes), access-token lifetime
`jwt.access_token_expires` is `15m`, refresh-token lifetime
`jwt.refresh_token_expires` is `7d`. -/
theorem seeded_config_defaults :
    configValue "auth.max_login_attempts" = some "5" ∧
    configValue "auth.lockout_duration" = some "15" ∧
    configValue "jwt.access_token_expires" = some "15m" ∧
    configValue "jwt.refresh_token_expires" = some "7d" := by
  refine ⟨by decide, by decide, by decide, by decide⟩

/-- Claim C9: when a required signing-key variable (`JWT_SECRET` or
`JWT_REFRESH_SECRET`, among the required variables) is absent or empty,
the container startup check fails and the container refuses to start, so
the Node application never issues or verifies a token; with every required
variable present the check passes and startup proceeds. -/
theorem startup_requires_key_material (env : List (String × String)) :
    (∀ v, v ∈ requiredVars → envVarPresent env v = false →
        startContainer env = StartOutcome.Refused) ∧
    ((∀ v ∈ requiredVars, envVarPresent env v = true) →
        startupEnvCheck env = true ∧ startContainer env = StartOutcome.Started) := by
  constructor
  · intro v hv hfalse
    cases hall : startupEnvCheck env with
    | false => simp [startContainer, hall]
    | true =>
        exfalso
        have hmem := List.all_eq_true.mp hall v hv
        rw [hfalse] at hmem
        exact Bool.false_ne_true hmem
  · intro h
    have hall : startupEnvCheck env = true := List.all_eq_true.mpr h
    exact ⟨hall, by simp [startContainer, hall]⟩

/-- A complete environment for the startup check. -/
def fullEnv : List (String × String) :=
  [("DB_HOST", "db"), ("DB_PORT", "5432"), ("DB_NAME", "sso_db"),
   ("DB_USER", "sso_user"), ("DB_PASSWORD", "pw"),
   ("JWT_SECRET", "k1"), ("JWT_REFRESH_SECRET", "k2")]

/-- Witness for `startup_requires_key_material`: the empty environment
(no `JWT_SECRET`) is refused; `fullEnv` starts. -/
theorem startup_requires_key_material_witness :
    startContainer [] = StartOutcome.Refused ∧
    startupEnvCheck fullEnv = true ∧
    startContainer fullEnv = StartOutcome.Started :=
  ⟨(startup_requires_key_material []).1 "JWT_SECRET" (by decide) (by decide),
   (startup_requires_key_material fullEnv).2 (by decide)⟩

/-- Running a concatenation of client events is running the two parts in
sequence. -/
theorem runEvents_append (st : DbState) (l1 l2 : List ClientEvent) :
    runEvents st (l1 ++ l2) = runEvents (runEvents st l1) l2 := by
  simp [runEvents, List.foldl_append]

/-- Writes issued while a transaction is open accumulate in the pending
set and leave the committed writes untouched. -/
theorem runEvents_writes (c p ws : List String) :
    runEvents ⟨c, some p⟩ (ws.map ClientEvent.write) = ⟨c, some (p ++ ws)⟩ := by
  induction ws generalizing p with
  | nil => simp [runEvents]
  | cons w ws ih =>
      show runEvents ⟨c, some (p ++ [w])⟩ (ws.map ClientEvent.write) = _
      rw [ih]
      simp

/-- Claim C10: `Database.transaction` is atomic at its interface — when
connected, the pooled client is released exactly once; if the callback
throws, a `ROLLBACK` is issued and the error is re-thrown, so the
database's committed writes are unchanged; if the callback returns, its
result is returned and exactly its writes are committed. -/
theorem transaction_atomic {E A : Type} (isConnected : Bool) (cb : TxnCallback E A)
    (st : DbState) (hconn : isConnected = true) (hst : st.pending = none) :
    (transaction isConnected cb).releases = 1 ∧
    (∀ e, cb.outcome = Except.error e →
        (transaction isConnected cb).result = Except.error (DbError.callbackError e) ∧
        ClientEvent.rollbackTxn ∈ (transaction isConnected cb).events ∧
        (runEvents st (transaction isConnected cb).events).committed = st.committed) ∧
    (∀ a, cb.outcome = Except.ok a →
        (transaction isConnected cb).result = Except.ok a ∧
        (runEvents st (transaction isConnected cb).events).committed =
          st.committed ++ cb.writes) := by
  subst hconn
  obtain ⟨c0, pend⟩ := st
  have hp : pend = none := hst
  subst hp
  obtain ⟨ws, outcome⟩ := cb
  cases outcome with
  | ok a =>
      refine ⟨rfl, ?_, ?_⟩
      · intro e he
        exact absurd he (by simp)
      · intro a2 ha
        have ha2 : a = a2 := by simpa using ha
        subst ha2
        refine ⟨rfl, ?_⟩
        show (runEvents ⟨c0, some c0⟩
            (ws.map ClientEvent.write ++ [ClientEvent.commitTxn])).committed = c0 ++ ws
        rw [runEvents_append, runEvents_writes]
        rfl
  | error e =>
      refine ⟨rfl, ?_, ?_⟩
      · intro e2 he
        have he2 : e = e2 := by simpa using he
        subst he2
        refine ⟨rfl, ?_, ?_⟩
        · simp [transaction]
        · show (runEvents ⟨c0, some c0⟩
              (ws.map ClientEvent.write ++ [ClientEvent.rollbackTxn])).committed = c0
          rw [runEvents_append, runEvents_writes]
          rfl
      · intro a ha
        exact absurd ha (by simp)

/-- Witness for `transaction_atomic`: a throwing callback that wrote `w1`
rolls back (committed writes stay `["base"]`), releasing once; a returning
callback that wrote `w2` commits exactly that write and returns 7. -/
theorem transaction_atomic_witness :
    (transaction true (⟨["w1"], Except.error 0⟩ : TxnCallback Nat Nat)).releases = 1 ∧
    (transaction true (⟨["w1"], Except.error 0⟩ : TxnCallback Nat Nat)).result =
      Except.error (DbError.callbackError 0) ∧
    ClientEvent.rollbackTxn ∈
      (transaction true (⟨["w1"], Except.error 0⟩ : TxnCallback Nat Nat)).events ∧
    (runEvents ⟨["base"], none⟩
        (transaction true (⟨["w1"], Except.error 0⟩ : TxnCallback Nat Nat)).events).committed =
      ["base"] ∧
    (transaction true (⟨["w2"], Except.ok 7⟩ : TxnCallback Nat Nat)).result = Except.ok 7 ∧
    (runEvents ⟨["base"], none⟩
        (transaction true (⟨["w2"], Except.ok 7⟩ : TxnCallback Nat Nat)).events).committed =
      ["base", "w2"] := by
  have herr := transaction_atomic true (⟨["w1"], Except.error 0⟩ : TxnCallback Nat Nat)
    ⟨["base"], none⟩ rfl rfl
  have hok := transaction_atomic true (⟨["w2"], Except.ok 7⟩ : TxnCallback Nat Nat)
    ⟨["base"], none⟩ rfl rfl
  obtain ⟨hr, he, -⟩ := herr
  obtain ⟨he1, he2, he3⟩ := he 0 rfl
  obtain ⟨-, -, ho⟩ := hok
  obtain ⟨ho1, ho2⟩ := ho 7 rfl
  exact ⟨hr, he1, he2, he3, ho1, by simpa using ho2⟩

/-- Unfolding one failure of a failure sequence. -/
theorem recordFailures_cons (cfg : LockoutConfig) (t : Nat) (ts : List Nat)
    (r : Option LockoutRecord) :
    recordFailures cfg (t :: ts) r = recordFailures cfg ts (some (recordFailure cfg t r)) := rfl

/-- Splitting a failure sequence. -/
theorem recordFailures_append (cfg : LockoutConfig) (l1 l2 : List Nat)
    (r : Option LockoutRecord) :
    recordFailures cfg (l1 ++ l2) r = recordFailures cfg l2 (recordFailures cfg l1 r) := by
  simp [recordFailures, List.foldl_append]

/-- While the failure count stays strictly below the threshold, failures
within the window only increment the counter: no lock is set and the
window anchor is unchanged. -/
theorem recordFailures_below (cfg : LockoutConfig) (ts : List Nat) (k w : Nat)
    (hw : ∀ t ∈ ts, t < w + cfg.window)
    (hlt : k + ts.length < cfg.threshold) :
    recordFailures cfg ts (some ⟨k, w, none⟩) = some (⟨k + ts.length, w, none⟩ : LockoutRecord) := by
  induction ts generalizing k with
  | nil => simp [recordFailures]
  | cons t ts ih =>
      rw [recordFailures_cons]
      have hnr : ¬ (w + cfg.window ≤ t) := by
        have := hw t (by simp)
        omega
      have hth : ¬ (cfg.threshold ≤ k + 1) := by
        simp at hlt
        omega
      have hstep : recordFailure cfg t (some ⟨k, w, none⟩) = ⟨k + 1, w, none⟩ := by
        simp [recordFailure, hnr, hth]
      rw [hstep, ih (k + 1) (fun x hx => hw x (by simp [hx])) (by simp at hlt ⊢; omega)]
      have : k + 1 + ts.length = k + (ts.length + 1) := by omega
      simp [this]

/-- Claim C2: starting from no record, after exactly `threshold` failures
(`ts ++ [tlast]`, all within the rolling window anchored at the first
failure `t0`), `checkAllowed` answers `Locked` with
`locked_until = tlast + lockoutDuration` (the time of the last failure
plus the lockout duration); after only the first `threshold − 1` failures
(`ts`) it still answers `Allowed`. -/
theorem lockout_threshold (cfg : LockoutConfig) (ts : List Nat) (tlast t0 now : Nat)
    (hlen : ts.length + 1 = cfg.threshold)
    (hhead : (ts ++ [tlast]).head? = some t0)
    (hw : ∀ t ∈ ts ++ [tlast], t < t0 + cfg.window)
    (hnow : now < tlast + cfg.lockoutDuration) :
    checkAllowed now (recordFailures cfg (ts ++ [tlast]) none) =
      LockoutStatus.Locked (tlast + cfg.lockoutDuration) ∧
    checkAllowed now (recordFailures cfg ts none) = LockoutStatus.Allowed := by
  cases ts with
  | nil =>
      simp at hlen hhead
      constructor
      · have hstep : recordFailure cfg tlast none =
            ⟨1, tlast, some (tlast + cfg.lockoutDuration)⟩ := by
          simp [recordFailure]
          omega
        rw [show ([] : List Nat) ++ [tlast] = [tlast] from rfl,
            recordFailures_cons, hstep]
        simp [recordFailures, checkAllowed, hnow]
      · simp [recordFailures, checkAllowed]
  | cons t1 rest =>
      have ht0 : t1 = t0 := by simpa using hhead
      subst ht0
      have hth2 : ¬ (cfg.threshold ≤ 1) := by
        simp at hlen
        omega
      have hfirst : recordFailure cfg t1 none = ⟨1, t1, none⟩ := by
        simp [recordFailure, hth2]
      have hbelow : recordFailures cfg rest (some ⟨1, t1, none⟩) =
          some (⟨1 + rest.length, t1, none⟩ : LockoutRecord) := by
        refine recordFailures_below cfg rest 1 t1 ?_ ?_
        · intro x hx
          exact hw x (by simp [hx])
        · simp at hlen
          omega
      constructor
      · rw [show (t1 :: rest) ++ [tlast] = t1 :: (rest ++ [tlast]) from rfl,
            recordFailures_cons, hfirst, recordFailures_append, hbelow]
        have hnr : ¬ (t1 + cfg.window ≤ tlast) := by
          have := hw tlast (by simp)
          omega
        have hthr : cfg.threshold ≤ 1 + rest.length + 1 := by
          simp at hlen
          omega
        have hstep : recordFailure cfg tlast (some ⟨1 + rest.length, t1, none⟩) =
            ⟨1 + rest.length + 1, t1, some (tlast + cfg.lockoutDuration)⟩ := by
          simp [recordFailure, hnr, hthr]
        rw [recordFailures_cons, hstep]
        simp [recordFailures, checkAllowed, hnow]
      · rw [recordFailures_cons, hfirst, hbelow]
        simp [checkAllowed]

/-- Witness for `lockout_threshold` at the seeded defaults (threshold 5,
lockout duration 15) and window 60: five failures at instants 0..4 lock
until 19; four failures leave the identity allowed. -/
theorem lockout_threshold_witness :
    checkAllowed 10 (recordFailures ⟨5, 15, 60⟩ [0, 1, 2, 3, 4] none) =
      LockoutStatus.Locked 19 ∧
    checkAllowed 10 (recordFailures ⟨5, 15, 60⟩ [0, 1, 2, 3] none) =
      LockoutStatus.Allowed := by
  have h := lockout_threshold ⟨5, 15, 60⟩ [0, 1, 2, 3] 4 0 10
    (by decide) (by decide) (by decide) (by decide)
  simpa using h

/-- A name-keyed upsert leaves the number of entries carrying the target
name unchanged. -/
theorem upsert_countP (reg : List SeedMicroservice) (s : SeedMicroservice) :
    (reg.map (fun x => if x.name == s.name then s else x)).countP
        (fun e => e.name == s.name) =
      reg.countP (fun e => e.name == s.name) := by
  rw [List.countP_map]
  congr 1
  funext x
  by_cases hx : x.name == s.name
  · simp [Function.comp, hx]
  · simp [Function.comp, hx]

/-- Every entry carrying the target name after a name-keyed upsert is the
upserted record. -/
theorem upsert_entry_eq (reg : List SeedMicroservice) (s e : SeedMicroservice)
    (he : e ∈ reg.map (fun x => if x.name == s.name then s else x))
    (hn : e.name = s.name) : e = s := by
  rcases List.mem_map.mp he with ⟨x, hx, hfx⟩
  by_cases hxn : x.name == s.name
  · rw [if_pos hxn] at hfx
    exact hfx.symm
  · rw [if_neg hxn] at hfx
    subst hfx
    exact absurd (by simpa using hn) (by simpa using hxn)

/-- When an entry of the target name is already present, `register` is the
name-keyed upsert map. -/
theorem register_of_any (reg : List SeedMicroservice) (s : SeedMicroservice)
    (h : reg.any (fun e => e.name == s.name) = true) :
    register reg s = reg.map (fun e => if e.name == s.name then s else e) := by
  unfold register
  rw [if_pos h]

/-- Registering on a registry with at most one entry of that name leaves
exactly one entry of that name. -/
theorem register_countP (reg : List SeedMicroservice) (s : SeedMicroservice)
    (huniq : reg.countP (fun e => e.name == s.name) ≤ 1) :
    (register reg s).countP (fun e => e.name == s.name) = 1 := by
  by_cases hany : reg.any (fun e => e.name == s.name)
  · rw [register_of_any reg s hany, upsert_countP]
    rcases List.any_eq_true.mp hany with ⟨x, hx, hpx⟩
    have hpos : 0 < reg.countP (fun e => e.name == s.name) :=
      List.countP_pos_iff.mpr ⟨x, hx, hpx⟩
    omega
  · unfold register
    rw [if_neg hany]
    have hzero : reg.countP (fun e => e.name == s.name) = 0 := by
      rw [List.countP_eq_zero]
      intro x hx
      exact fun hpx => hany (List.any_eq_true.mpr ⟨x, hx, hpx⟩)
    simp [List.countP_append, hzero, List.countP_cons]

/-- Claim C8: `register` is idempotent by service name — after registering
a service and then registering a same-named service again, the registry
holds exactly one entry of that name, and that entry carries the second
registration's metadata. -/
theorem register_idempotent (reg : List SeedMicroservice) (s s2 : SeedMicroservice)
    (hname : s2.name = s.name)
    (huniq : reg.countP (fun e => e.name == s.name) ≤ 1) :
    (register (register reg s) s2).countP (fun e => e.name == s.name) = 1 ∧
    ∀ e ∈ register (register reg s) s2, e.name = s.name → e = s2 := by
  have hc1 : (register reg s).countP (fun e => e.name == s.name) = 1 :=
    register_countP reg s huniq
  have hany2 : (register reg s).any (fun e => e.name == s2.name) = true := by
    rcases List.countP_pos_iff.mp (by omega : 0 < (register reg s).countP
      (fun e => e.name == s.name)) with ⟨x, hx, hpx⟩
    refine List.any_eq_true.mpr ⟨x, hx, ?_⟩
    rw [hname]
    exact hpx
  have hreg2 : register (register reg s) s2 =
      (register reg s).map (fun x => if x.name == s2.name then s2 else x) :=
    register_of_any (register reg s) s2 hany2
  constructor
  · rw [hreg2, ← hname, upsert_countP (register reg s) s2, hname]
    exact hc1
  · intro e he hen
    rw [hreg2] at he
    exact upsert_entry_eq (register reg s) s2 e he (by rw [hen, hname])

/-- Witness for `register_idempotent`: registering `svc` twice into the
empty registry, the second time with updated metadata, leaves exactly one
`svc` entry carrying the updated metadata. -/
theorem register_idempotent_witness :
    (register (register [] ⟨"svc", "old", "u1", "h1", ["admin"]⟩)
          ⟨"svc", "new", "u2", "h2", ["admin", "user"]⟩).countP
        (fun e => e.name == "svc") = 1 ∧
    ∀ e ∈ register (register [] ⟨"svc", "old", "u1", "h1", ["admin"]⟩)
        ⟨"svc", "new", "u2", "h2", ["admin", "user"]⟩,
      e.name = "svc" → e = ⟨"svc", "new", "u2", "h2", ["admin", "user"]⟩ := by
  have h := register_idempotent [] ⟨"svc", "old", "u1", "h1", ["admin"]⟩
    ⟨"svc", "new", "u2", "h2", ["admin", "user"]⟩ rfl (by decide)
  simpa using h

/-- After revoking a lineage, every session of that lineage is revoked. -/
theorem revokeLineageSessions_revoked (sessions : List Session) (lin : Nat) :
    ∀ s ∈ revokeLineageSessions sessions lin, s.lineage = lin → s.revoked = true := by
  intro s hs hlin
  rcases List.mem_map.mp hs with ⟨x, hx, hfx⟩
  by_cases hxl : x.lineage == lin
  · rw [if_pos hxl] at hfx
    rw [← hfx]
  · rw [if_neg hxl] at hfx
    subst hfx
    exact absurd hlin (by simpa using hxl)

/-- Claim C1: for every store and every freshly issued refresh token,
rotating twice in sequence succeeds both times with pairwise distinct
token values; afterwards presenting the first, now-superseded, rotation
result fails with `TokenReused` and revokes the entire chain of that
lineage, so a subsequent use of the second rotation result also fails
(with `TokenRevoked`). -/
theorem refresh_rotation_replay (st : TokenStore) (p now0 ttl now1 now2 now3 now4 : Nat)
    (h1 : now1 < now0 + ttl) (h2 : now2 < now1 + ttl) :
    ∃ t0 st1 t1 st2 t2 st3 st4 st5,
      issueRefresh st p now0 ttl = (t0, st1) ∧
      rotate st1 t0 now1 ttl = (Except.ok t1, st2) ∧
      rotate st2 t1 now2 ttl = (Except.ok t2, st3) ∧
      t1 ≠ t0 ∧ t2 ≠ t0 ∧ t2 ≠ t1 ∧
      rotate st3 t1 now3 ttl = (Except.error RotateError.TokenReused, st4) ∧
      (∀ s ∈ st4.sessions, s.lineage = st.nextLineage → s.revoked = true) ∧
      rotate st4 t2 now4 ttl = (Except.error RotateError.TokenRevoked, st5) := by
  obtain ⟨sess, tps, n, L⟩ := st
  have hx1 : ¬ (now0 + ttl ≤ now1) := by omega
  have hx2 : ¬ (now1 + ttl ≤ now2) := by omega
  refine ⟨n,
    ⟨(⟨n, L, p, now0+ttl, false, none⟩ : Session) :: sess, (L,n) :: tps, n+1, L+1⟩,
    n+1,
    ⟨(⟨n+1, L, p, now1+ttl, false, some n⟩ : Session) ::
       markRevoked ((⟨n, L, p, now0+ttl, false, none⟩ : Session) :: sess) n,
     (L, n+1) :: (L,n) :: tps, n+2, L+1⟩,
    n+2,
    ⟨(⟨n+2, L, p, now2+ttl, false, some (n+1)⟩ : Session) ::
       markRevoked ((⟨n+1, L, p, now1+ttl, false, some n⟩ : Session) ::
         markRevoked ((⟨n, L, p, now0+ttl, false, none⟩ : Session) :: sess) n) (n+1),
     (L, n+2) :: (L, n+1) :: (L,n) :: tps, n+3, L+1⟩,
    ⟨revokeLineageSessions
       ((⟨n+2, L, p, now2+ttl, false, some (n+1)⟩ : Session) ::
          markRevoked ((⟨n+1, L, p, now1+ttl, false, some n⟩ : Session) ::
            markRevoked ((⟨n, L, p, now0+ttl, false, none⟩ : Session) :: sess) n) (n+1)) L,
     (L, n+2) :: (L, n+1) :: (L,n) :: tps, n+3, L+1⟩,
    ⟨revokeLineageSessions
       ((⟨n+2, L, p, now2+ttl, false, some (n+1)⟩ : Session) ::
          markRevoked ((⟨n+1, L, p, now1+ttl, false, some n⟩ : Session) ::
            markRevoked ((⟨n, L, p, now0+ttl, false, none⟩ : Session) :: sess) n) (n+1)) L,
     (L, n+2) :: (L, n+1) :: (L,n) :: tps, n+3, L+1⟩,
    rfl, ?_, ?_, by omega, by omega, by omega, ?_, ?_, ?_⟩
  · simp [rotate, findSession, tipOf, hx1]
  · simp [rotate, findSession, tipOf, hx2]
  · simp [rotate, findSession, tipOf, markRevoked, revokeLineageSessions]
  · exact fun s hs hlin => revokeLineageSessions_revoked _ L s hs hlin
  · simp [rotate, findSession, tipOf, markRevoked, revokeLineageSessions]

/-- Witness for `refresh_rotation_replay`: from the empty store, issue for
principal 1 at time 0 with lifetime 10, rotate at times 1 and 2, replay
the superseded token at time 3, and present the second token at time 4. -/
theorem refresh_rotation_replay_witness :
    ∃ t0 st1 t1 st2 t2 st3 st4 st5,
      issueRefresh ⟨[], [], 0, 0⟩ 1 0 10 = (t0, st1) ∧
      rotate st1 t0 1 10 = (Except.ok t1, st2) ∧
      rotate st2 t1 2 10 = (Except.ok t2, st3) ∧
      t1 ≠ t0 ∧ t2 ≠ t0 ∧ t2 ≠ t1 ∧
      rotate st3 t1 3 10 = (Except.error RotateError.TokenReused, st4) ∧
      (∀ s ∈ st4.sessions, s.lineage = 0 → s.revoked = true) ∧
      rotate st4 t2 4 10 = (Except.error RotateError.TokenRevoked, st5) :=
  refresh_rotation_replay ⟨[], [], 0, 0⟩ 1 0 10 1 2 3 4 (by decide) (by decide)

end SSO







